import Mathlib

/-!
Shallow embedding of the Schocken game engine (src/schocken/base.py and
src/schocken/game.py) and verification of its specification claims.

Conventions of the embedding:
* Python `int` is `Int`; Python `str` is `String` (name processing uses
  `List Char`, the character sequence of a Python string).
* Methods that can raise an exception are embedded as `Option`-valued
  functions; `none` is the exception path.
* Mutation is embedded as explicit state passing: a mutating method on a
  Python object becomes a function from the object's value to its new value.
* Python `list.sort` is stable, so it is embedded as `List.insertionSort`
  (stable by construction).
-/

namespace Schocken

/-- `Die` from base.py: a value together with the `visible` and `taken_out`
flags.  Equality of `Die` is Python dataclass equality (field-wise). -/
structure Die where
  value : Int
  visible : Bool := false
  taken_out : Bool := false
deriving DecidableEq, Repr

/-- `Die.__post_init__`: constructing a die validates
`1 <= value <= 6 or value == -1`; `none` is the `ValueError` path. -/
def Die.mk? (v : Int) : Option Die :=
  if (1 ≤ v ∧ v ≤ 6) ∨ v = -1 then some { value := v } else none

/-- `Die.make_a_one`: set the value to one, mark taken out and visible. -/
def Die.make_a_one (_d : Die) : Die :=
  { value := 1, taken_out := true, visible := true }

/-- `Die.throw`: re-roll.  The random result of `random.randint(1, 6)` is
passed in explicitly as `roll`; the flags are cleared. -/
def Die.throwWith (_d : Die) (roll : Int) : Die :=
  { value := roll, visible := false, taken_out := false }

/-- `HandType` from base.py (category of a hand): the tag string and the
numeric parameter (`hand_type_value`, default 0). -/
structure HandType where
  hand_type : String
  hand_type_value : Int := 0
deriving DecidableEq, Repr

/-- `HandType.__post_init__` validation logic: `true` iff construction of
this `HandType` succeeds (does not raise `ValueError`). -/
def HandType.postInitOk (ht : HandType) : Bool :=
  if ht.hand_type == "" then false
  else if !(["Schock-out", "Schock", "General", "Straight", "High Dice"].contains
      ht.hand_type) then false
  else if ["Schock", "General", "Straight", "High Dice"].contains ht.hand_type
      && ht.hand_type_value == 0 then false
  else if ht.hand_type == "Schock"
      && (ht.hand_type_value < 2 || ht.hand_type_value > 6) then false
  else if ht.hand_type == "General"
      && (ht.hand_type_value < 2 || ht.hand_type_value > 6) then false
  else if ht.hand_type == "Straight"
      && (ht.hand_type_value < 1 || ht.hand_type_value > 4) then false
  else if ht.hand_type == "High Dice"
      && (ht.hand_type_value < 221 || ht.hand_type_value > 665) then false
  else true

/-- Constructing a `HandType` in Python (runs `__post_init__`); `none` is
the `ValueError` path. -/
def HandType.mk? (t : String) (v : Int := 0) : Option HandType :=
  if HandType.postInitOk { hand_type := t, hand_type_value := v }
  then some { hand_type := t, hand_type_value := v } else none

/-- `HandType.internal_rank`: the rank used by `__eq__`/`__lt__`; `none` is
the `ValueError` raised on an unknown tag. -/
def HandType.internal_rank (ht : HandType) : Option Int :=
  if ht.hand_type == "Schock-out" then some 5000
  else if ht.hand_type == "Schock" then some (4000 + ht.hand_type_value)
  else if ht.hand_type == "General" then some (3000 + ht.hand_type_value)
  else if ht.hand_type == "Straight" then some (2000 + ht.hand_type_value)
  else if ht.hand_type == "High Dice" then some (1000 + ht.hand_type_value)
  else none

/-- `HandType.chips`: the chip value of a category; `none` is the
`ValueError` raised on an unknown tag. -/
def HandType.chips (ht : HandType) : Option Int :=
  if ht.hand_type == "Schock-out" then some 13
  else if ht.hand_type == "Schock" then some ht.hand_type_value
  else if ht.hand_type == "General" then some 3
  else if ht.hand_type == "Straight" then some 2
  else if ht.hand_type == "High Dice" then some 1
  else none

/-- `HandType.__lt__` (with `total_ordering`): compare by `internal_rank`;
`none` is the exception path for an invalid tag. -/
def HandType.htLt (a b : HandType) : Option Bool := do
  let ra ← a.internal_rank
  let rb ← b.internal_rank
  pure (decide (ra < rb))

/-- `HandType.__eq__`: equality of `internal_rank`; `none` is the exception
path for an invalid tag. -/
def HandType.htEq (a b : HandType) : Option Bool := do
  let ra ← a.internal_rank
  let rb ← b.internal_rank
  pure (decide (ra = rb))

/-- `Hand` from base.py.  `hand_type_cache` is the `_hand_type` field
(`None` until a category has been determined). -/
structure Hand where
  dice : List Die := []
  hand_type_cache : Option HandType := none
  put_together : Bool := false
  players_turn_ind : Nat := 0
  finalized : Bool := false
deriving DecidableEq, Repr

/-- `Hand.sort`: sort the dice in descending order by value (Python's
stable `list.sort` with `reverse=True`). -/
def Hand.sortDice (h : Hand) : Hand :=
  { h with dice := h.dice.insertionSort (fun a b => b.value ≤ a.value) }

/-- The High-Dice branch of `Hand.detemine_hand_type`: re-sort descending
and build `HandType("High Dice", 100*d0 + 10*d1 + d2)`. -/
def Hand.highDiceOf (h : Hand) : Option Hand :=
  let h1 := h.sortDice
  match h1.dice with
  | [d0, d1, d2] =>
      (HandType.mk? "High Dice"
          (100 * d0.value + 10 * d1.value + d2.value)).map
        fun ht => { h1 with hand_type_cache := some ht }
  | _ => none

/-- `Hand.detemine_hand_type` (sic) from base.py.  With other than 3 dice
it returns early leaving the cached category untouched; otherwise it sets
the cache.  `none` is an exception path (failed `assert` or a `HandType`
whose validation raises). -/
def Hand.detemineHandType (h : Hand) : Option Hand :=
  if h.dice.length ≠ 3 then some h
  else
    let ones := (h.dice.filter (fun d => d.value == 1)).length
    if ones = 3 then
      (HandType.mk? "Schock-out").map fun ht => { h with hand_type_cache := some ht }
    else if ones = 2 then
      match h.dice.filter (fun d => !(d.value == 1)) with
      | [d] => (HandType.mk? "Schock" d.value).map
          fun ht => { h with hand_type_cache := some ht }
      | _ => none
    else if ((h.dice.map Die.value).dedup).length = 1 then
      match h.dice.head? with
      | some d0 => (HandType.mk? "General" d0.value).map
          fun ht => { h with hand_type_cache := some ht }
      | none => none
    else if ((h.dice.map Die.value).dedup).length = 3 then
      let sorted_values := (h.dice.map Die.value).insertionSort (fun a b => a ≤ b)
      if sorted_values = [1, 2, 3] ∧ h.put_together = false then
        (HandType.mk? "Straight" 1).map fun ht => { h with hand_type_cache := some ht }
      else if sorted_values = [2, 3, 4] then
        (HandType.mk? "Straight" 2).map fun ht => { h with hand_type_cache := some ht }
      else if sorted_values = [3, 4, 5] then
        (HandType.mk? "Straight" 3).map fun ht => { h with hand_type_cache := some ht }
      else if sorted_values = [4, 5, 6] then
        (HandType.mk? "Straight" 4).map fun ht => { h with hand_type_cache := some ht }
      else h.highDiceOf
    else h.highDiceOf

/-- `Hand.update`: sort the dice, set `put_together` if any die was taken
out, then determine the hand type. -/
def Hand.update (h : Hand) : Option Hand :=
  let h1 := h.sortDice
  let h2 := if h1.dice.any (fun d => d.taken_out)
            then { h1 with put_together := true } else h1
  h2.detemineHandType

/-- The `Hand.dice` setter: replace the dice list, then `update`. -/
def Hand.setDice (h : Hand) (l : List Die) : Option Hand :=
  Hand.update { h with dice := l }

/-- The `Hand.hand_type` property.  When `_hand_type` is `None` the code
constructs the default `HandType()` whose validation raises `ValueError`
("Hand type cannot be empty"); `none` is that exception path. -/
def Hand.handTypeProp (h : Hand) : Option HandType :=
  h.hand_type_cache

/-- `Hand.get_chip_count`: requires exactly 3 dice, then reads
`self.hand_type.chips` (the property raises on an undetermined hand). -/
def Hand.getChipCount (h : Hand) : Option Int :=
  if h.dice.length ≠ 3 then none
  else (h.handTypeProp).bind HandType.chips

/-- `Hand.finalize`: requires exactly 3 dice, runs `update`, sets
`put_together` if any die is taken out, and sets `finalized`.  Note that
the code never touches die visibility here. -/
def Hand.finalize (h : Hand) : Option Hand :=
  if h.dice.length ≠ 3 then none
  else
    (h.update).map fun h1 =>
      let h2 := if h1.dice.any (fun d => d.taken_out)
                then { h1 with put_together := true } else h1
      { h2 with finalized := true }

/-- `Hand.copy`: a fresh `Hand()` receives copies of the dice through the
`dice` setter (which runs `update`), then the flags and the cached type
are copied over and `update` runs once more. -/
def Hand.copyHand (h : Hand) : Option Hand := do
  let h1 ← Hand.setDice {} h.dice
  let h2 := { h1 with put_together := h.put_together,
                      players_turn_ind := h.players_turn_ind,
                      finalized := h.finalized,
                      hand_type_cache := h.hand_type_cache }
  h2.update

/-- A hand built from a list of raw die values (fresh dice, both flags
clear) with a given `put_together` flag and no cached category yet. -/
def handOfValues (pt : Bool) (vals : List Int) : Hand :=
  { dice := vals.map (fun v => { value := v }), put_together := pt }

/-- The classification rule exactly as claim C1 words it (spec side of the
refinement; compare with `Hand.detemineHandType`, the code side). -/
def categorySpec (put_together : Bool) (a b c : Int) : HandType :=
  let ones := ([a, b, c].filter (fun v => v = 1)).length
  let desc := ([a, b, c]).insertionSort (fun x y => y ≤ x)
  let mx := desc.headD 0
  let md := (desc.drop 1).headD 0
  let mn := (desc.drop 2).headD 0
  let asc := ([a, b, c]).insertionSort (fun x y => x ≤ y)
  if ones = 3 then { hand_type := "Schock-out" }
  else if ones = 2 then
    { hand_type := "Schock",
      hand_type_value := (([a, b, c].filter (fun v => v ≠ 1)).headD 0) }
  else if a = b ∧ b = c then { hand_type := "General", hand_type_value := a }
  else if a ≠ b ∧ b ≠ c ∧ a ≠ c then
    if asc = [1, 2, 3] then
      if put_together = false then { hand_type := "Straight", hand_type_value := 1 }
      else { hand_type := "High Dice", hand_type_value := 100 * mx + 10 * md + mn }
    else if asc = [2, 3, 4] then { hand_type := "Straight", hand_type_value := 2 }
    else if asc = [3, 4, 5] then { hand_type := "Straight", hand_type_value := 3 }
    else if asc = [4, 5, 6] then { hand_type := "Straight", hand_type_value := 4 }
    else { hand_type := "High Dice", hand_type_value := 100 * mx + 10 * md + mn }
  else { hand_type := "High Dice", hand_type_value := 100 * mx + 10 * md + mn }

/-- The freshly thrown hand 4-3-2 (no die taken out, as after
`play_turn`'s throws), with its category determined by `update`. -/
def c7Hand : Option Hand :=
  (handOfValues false [4, 3, 2]).update

/-- A hand mutated through the public `dice` setter: first three dice
(giving the cache a value), then a single die (cache goes stale). -/
def c10StaleHand : Option Hand :=
  (Hand.setDice {} [{ value := 1 }, { value := 1 }, { value := 2 }]).bind
    fun h => Hand.setDice h [{ value := 5 }]

/-- Python `str(int)` as a character list (values here are nonnegative). -/
def intStr (n : Int) : List Char :=
  if n < 0 then '-' :: Nat.toDigits 10 (-n).toNat
  else Nat.toDigits 10 n.toNat

/-- Python `sub in s` substring containment on character lists. -/
def containsSub (s sub : List Char) : Bool :=
  (List.range (s.length + 1)).any fun i => sub.isPrefixOf (s.drop i)

/-- Python `s.split(sep)` for a one-character separator. -/
def splitOnChar (sep : Char) (s : List Char) : List (List Char) :=
  match s with
  | [] => [[]]
  | c :: rest =>
    let r := splitOnChar sep rest
    if c == sep then [] :: r
    else
      match r with
      | [] => [[c]]
      | hd :: tl => (c :: hd) :: tl

/-- The numeric value of a decimal digit character, if it is one. -/
def charDigit? (c : Char) : Option Nat :=
  if '0' ≤ c ∧ c ≤ '9' then some (c.toNat - '0'.toNat) else none

/-- Python `int(s)` on the all-digit strings that occur in hand names;
`none` is the `ValueError` path on anything else. -/
def parseInt? (s : List Char) : Option Int :=
  if s = [] then none
  else s.foldlM (fun acc c => (charDigit? c).map (fun d => acc * 10 + (d : Int))) 0

/-- `[Die(v) for v in vs]` with each construction validated. -/
def diceOf (vs : List Int) : Option (List Die) := vs.mapM Die.mk?

/-- `Hand.to_name`: the display name of the hand, from its category.
Reading `hand_type` on an undetermined hand raises (`none`). -/
def Hand.to_name (h : Hand) : Option (List Char) := do
  let ht ← h.handTypeProp
  if ht.hand_type == "Schock-out" then pure "Schock-out".data
  else if ht.hand_type == "Schock" then
    pure ("Schock-".data ++ intStr ht.hand_type_value)
  else if ht.hand_type == "General" then
    pure ("General-".data ++ intStr ht.hand_type_value)
  else if ht.hand_type == "Straight" then
    pure ("Straight-".data ++ intStr ht.hand_type_value
      ++ ':' :: intStr (ht.hand_type_value + 2))
  else if ht.hand_type == "High Dice" then do
    let val := intStr ht.hand_type_value
    let ch ← val.get? 2
    if val = "221".data then pure "Motte".data
    else pure (val.take 2 ++ '-' :: [ch])
  else pure "not defined".data

/-- `Hand.from_name`: rebuild a hand from a display name.  Each branch
sets the dice through the `dice` setter and ends with the method's final
`update`; `none` covers the `ValueError`, failed-`assert` and
index-error paths. -/
def Hand.from_name (name : List Char) : Option Hand :=
  let hand : Hand := {}
  if name = "Motte".data then do
    let l ← diceOf [1, 2, 2]
    let h ← hand.setDice l
    h.update
  else if containsSub name "Schock-out".data then do
    let l ← diceOf [1, 1, 1]
    let h ← hand.setDice l
    h.update
  else if containsSub name "Schock-".data then do
    let part ← (splitOnChar '-' name).get? 1
    let v ← parseInt? part
    let l ← diceOf [1, 1, v]
    let h ← hand.setDice l
    h.update
  else if containsSub name "General-".data then do
    let part ← (splitOnChar '-' name).get? 1
    let v ← parseInt? part
    let l ← diceOf [v, v, v]
    let h ← hand.setDice l
    h.update
  else if containsSub name "Straight-".data then do
    let part ← (splitOnChar '-' name).get? 1
    let p0 ← (splitOnChar ':' part).get? 0
    let v ← parseInt? p0
    let l ← diceOf [v, v + 1, v + 2]
    let h ← hand.setDice l
    h.update
  else if containsSub name ['-'] then do
    let values := (splitOnChar '-' name).join
    if values.length = 3 then do
      let l ← values.mapM (fun ch => (parseInt? [ch]).bind Die.mk?)
      let h ← hand.setDice l
      let h2 := if values.contains '1' then { h with put_together := true } else h
      h2.update
    else none
  else none

/-- The non-strict order induced by `Hand.__lt__` on hands paired with
their already-extracted internal rank (ties order by descending
`players_turn_ind`: a higher index is the worse hand). -/
def handKeyLe (a b : Hand × Int) : Prop :=
  a.2 < b.2 ∨ (a.2 = b.2 ∧ b.1.players_turn_ind ≤ a.1.players_turn_ind)

instance : DecidableRel handKeyLe := fun a b => by
  unfold handKeyLe; infer_instance

/-- Python's stable `list.sort()` on hands via `Hand.__lt__`: comparing
reads each hand's `hand_type.internal_rank` (raising on an undetermined
hand), then sorts stably by rank with ties by descending turn index. -/
def sortHandsByLt (hands : List Hand) : Option (List Hand) := do
  let keyed ← hands.mapM (fun h => do
    let ht ← h.handTypeProp
    let r ← ht.internal_rank
    pure (h, r))
  pure ((keyed.insertionSort handKeyLe).map Prod.fst)

/-- `itertools.combinations_with_replacement(range(1, 7), 3)` in its
enumeration order. -/
def allCombos : List (List Int) :=
  List.join ((List.range 6).map fun a =>
    List.join ((List.range 6).map fun b =>
      (List.range 6).filterMap fun c =>
        if a ≤ b ∧ b ≤ c then
          some [((a : Int)) + 1, ((b : Int)) + 1, ((c : Int)) + 1]
        else none))

/-- `Hand.get_all_possible_hands`: for every 3-value combination build the
hand and its `put_together` variant, de-duplicate by
`hand_type.internal_rank`, and sort by `Hand.__lt__`. -/
def Hand.get_all_possible_hands : Option (List Hand) := do
  let possible ← allCombos.foldlM (fun acc combo => do
      let dvals := combo.insertionSort (fun x y => y ≤ x)
      let dice ← diceOf dvals
      let hand1 ← Hand.setDice {} dice
      let hand ← hand1.update
      let hand2a ← hand.copyHand
      let hand2 ← Hand.update { hand2a with put_together := true }
      let r1 ← hand.handTypeProp.bind HandType.internal_rank
      let ranks ← acc.mapM (fun h => h.handTypeProp.bind HandType.internal_rank)
      let acc1 := if ranks.contains r1 then acc else acc ++ [hand]
      let r2 ← hand2.handTypeProp.bind HandType.internal_rank
      let ranks1 ← acc1.mapM (fun h => h.handTypeProp.bind HandType.internal_rank)
      pure (if ranks1.contains r2 then acc1 else acc1 ++ [hand2])) []
  sortHandsByLt possible


/-- `Hand.__lt__`: equal categories (`__eq__`, i.e. equal rank) compare by
descending turn index (a higher index is the worse hand), otherwise by
category rank.  `none` is the exception path on an undetermined hand. -/
def Hand.hLt (a b : Hand) : Option Bool := do
  let ta ← a.handTypeProp
  let tb ← b.handTypeProp
  let ra ← ta.internal_rank
  let rb ← tb.internal_rank
  if ra = rb then pure (decide (b.players_turn_ind < a.players_turn_ind))
  else pure (decide (ra < rb))

/-- `Turn` from base.py; `dataclass(order=True)` compares `final_hand`
only. -/
structure Turn where
  turn_index : Nat := 0
  player_id : Int := -1
  final_hand : Hand := {}
  num_throws : Nat := 0
deriving DecidableEq, Repr

/-- `Turn.__lt__`: delegate to `Hand.__lt__` on the final hands. -/
def Turn.turnLt (a b : Turn) : Option Bool :=
  Hand.hLt a.final_hand b.final_hand

/-- The key extracted for each turn before sorting: the turn itself with
its hand's `internal_rank` (comparison raises on an undetermined hand,
which the `Option` models). -/
def turnKeyOf (t : Turn) : Option (Turn × Int) := do
  let ht ← t.final_hand.handTypeProp
  let r ← ht.internal_rank
  pure (t, r)

/-- The non-strict order induced by `Turn.__lt__` on keyed turns (ties by
descending turn position: a higher `players_turn_ind` is worse). -/
def turnKeyLe (a b : Turn × Int) : Prop :=
  a.2 < b.2 ∨ (a.2 = b.2 ∧ b.1.final_hand.players_turn_ind ≤ a.1.final_hand.players_turn_ind)

instance : DecidableRel turnKeyLe := fun a b => by
  unfold turnKeyLe; infer_instance

instance : IsTotal (Turn × Int) turnKeyLe :=
  ⟨by intro a b; unfold turnKeyLe; omega⟩

instance : IsTrans (Turn × Int) turnKeyLe :=
  ⟨by intro a b c; unfold turnKeyLe; omega⟩

/-- Python's stable `mr.turns.sort()` under `Turn.__lt__`. -/
def sortTurnsByLt (turns : List Turn) : Option (List Turn) :=
  (turns.mapM turnKeyOf).map fun keyed =>
    (keyed.insertionSort turnKeyLe).map Prod.fst

/-- `MiniRound` from base.py (the fields `play_mini_round` fills). -/
structure MiniRound where
  turns : List Turn := []
  worst_turn : Option Turn := none
  best_turn : Option Turn := none
  given_chips : Int := 0
  lost_by : Option Int := none
deriving Repr

/-- `Game.play_mini_round`, with each player's `play_turn` result supplied
as input: `results` pairs the player's id with the finalized hand that
turn produced (the randomness of the throws lives inside those hands).
Checks the 2..50 player count, assigns each hand its turn position,
sorts the turns, and fills worst/best/chips/loser. -/
def playMiniRound (results : List (Int × Hand)) : Option MiniRound :=
  if results.length < 2 ∨ 50 < results.length then none
  else
    (sortTurnsByLt (((List.range results.length).zip results).map fun p =>
        { turn_index := p.1, player_id := p.2.1,
          final_hand := { p.2.2 with players_turn_ind := p.1 } : Turn })).bind
      fun sorted => sorted.head?.bind
      fun worst => sorted.getLast?.bind
      fun best => (best.final_hand.getChipCount).map
      fun chips =>
        { turns := sorted, worst_turn := some worst, best_turn := some best,
          given_chips := chips, lost_by := some worst.player_id }

/-- The data `play_half` consumes from each played mini-round: the best
hand's owner, the mini-round's loser, and the best hand's category
(`mr.given_chips` is its `get_chip_count`).  A list of outcomes abstracts
the dice randomness and the players' strategies; which players an outcome
names is constrained only by the hypotheses, so reorderings of the active
player list are covered. -/
structure Outcome where
  best_pid : Int
  lost_pid : Int
  bestType : HandType
deriving DecidableEq, Repr

/-- Sum of the chip balances over the player list (the values of the
`chip_balances` dict, whose keys are fixed at the start of the half). -/
def balSum (players : List Int) (f : Int → Int) : Int :=
  (players.map f).sum

/-- The chip state of a `Half` during `play_half`: the `ChipManager`
fields, `stock_chips_gone`, `lost_by` and the mini-round counter.
`balances` is total with default 0; only keys of the player list are ever
read or written. -/
structure HalfState where
  chips_in_stock : Int := 13
  balances : Int → Int := fun _ => 0
  stock_chips_gone : Bool := false
  lost_by : Option Int := none
  mini_round_index : Nat := 0

/-- The loop in `play_half` over `chip_balances.items()` after each
mini-round: a balance of exactly 13 marks that player as the half's
loser; a balance above 13 or below 0 raises `ValueError` (`none`). -/
def checkBalances (players : List Int) (s : HalfState) : Option HalfState :=
  match players with
  | [] => some s
  | pid :: rest =>
      if s.balances pid = 13 then checkBalances rest { s with lost_by := some pid }
      else if 13 < s.balances pid ∨ s.balances pid < 0 then none
      else checkBalances rest s

/-- The chip-transfer block of `play_half` for a non-Schock-out
mini-round.  While the stock is not gone: debit `mr.given_chips` from the
stock; on underflow cap the transfer to exactly what was left (the
`mr.given_chips -= abs(...)` line), zero the stock and mark it gone.
Once the stock is gone: debit the best player's own balance, clamped by
`min` to what they hold.  In both cases the (possibly capped) amount is
then credited to the mini-round's loser. -/
def transferChips (s : HalfState) (o : Outcome) (chips : Int) : HalfState :=
  if s.stock_chips_gone = false then
    if s.chips_in_stock - chips ≤ 0 then
      { s with
        chips_in_stock := 0
        stock_chips_gone := true
        balances := (Function.update s.balances o.lost_pid
          (s.balances o.lost_pid + (chips - |s.chips_in_stock - chips|))) }
    else
      { s with
        chips_in_stock := s.chips_in_stock - chips
        balances := (Function.update s.balances o.lost_pid
          (s.balances o.lost_pid + chips)) }
  else
    { s with balances := (Function.update
        (Function.update s.balances o.best_pid
          (s.balances o.best_pid - min chips (s.balances o.best_pid)))
        o.lost_pid
        ((Function.update s.balances o.best_pid
          (s.balances o.best_pid - min chips (s.balances o.best_pid))) o.lost_pid
         + min chips (s.balances o.best_pid))) }

/-- One iteration of the `while` loop in `Game.play_half`, given the
played mini-round's outcome `o`.  A Schock-out best hand ends the half at
once (loser set, no transfer, `break`).  Otherwise the chip transfer runs
(`transferChips`) and then the balance scan.  The removal of zero-balance
players only edits `active_players`, which the outcome abstraction
already ranges over, so it does not appear here.  `none` is an exception
path. -/
def halfStep (players : List Int) (s : HalfState) (o : Outcome) : Option HalfState :=
  o.bestType.internal_rank.bind fun ra =>
  (HandType.mk? "Schock-out").bind fun so =>
  so.internal_rank.bind fun rso =>
  if ra = rso then
    some { s with lost_by := some o.lost_pid,
                  mini_round_index := s.mini_round_index + 1 }
  else
    o.bestType.chips.bind fun chips =>
    (checkBalances players (transferChips s o chips)).map fun s3 =>
      { s3 with mini_round_index := s3.mini_round_index + 1 }

/-- The `while half.lost_by == None and mini_round_index < 1000` loop of
`play_half`, consuming one outcome per iteration. -/
def playHalfAux (players : List Int) (s : HalfState) : List Outcome → Option HalfState
  | [] => some s
  | o :: rest =>
      if s.lost_by = none ∧ s.mini_round_index < 1000 then
        (halfStep players s o).bind fun s1 => playHalfAux players s1 rest
      else some s

/-- The initial chip state of a half: a full stock of 13 and a zero
balance for every active player. -/
def initHalfState : HalfState := {}

/-- `Game.play_half` on a given active player list, with the mini-round
outcomes supplied as input. -/
def playHalf (players : List Int) (outs : List Outcome) : Option HalfState :=
  playHalfAux players initHalfState outs

/-- What `play_half` guarantees about each outcome it consumes: the best
category validated on construction, both named players active, and the
best and worst turns belonging to different players (a sorted mini-round
of at least two turns has distinct endpoints). -/
def ValidOutcome (players : List Int) (o : Outcome) : Prop :=
  o.bestType.postInitOk = true ∧ o.best_pid ∈ players ∧ o.lost_pid ∈ players ∧
    o.best_pid ≠ o.lost_pid

instance (players : List Int) (o : Outcome) : Decidable (ValidOutcome players o) := by
  unfold ValidOutcome; infer_instance

/-- The chip invariant of claim C3, as state threading through the loop:
conservation against the 13-chip pool, a zero stock exactly once the
stock is marked gone, a positive stock before, and nonnegative balances. -/
def ChipInv (players : List Int) (s : HalfState) : Prop :=
  s.chips_in_stock + balSum players s.balances = 13 ∧
  (s.stock_chips_gone = true → s.chips_in_stock = 0) ∧
  (s.stock_chips_gone = false → 1 ≤ s.chips_in_stock) ∧
  (∀ p ∈ players, 0 ≤ s.balances p)

/-- The result of `Game.play_round`: for each half played, the active
player list it was played with, and its resulting state; plus the
round's loser. -/
structure RoundResult where
  halves : List (List Int × HalfState)
  lost_by : Option Int

/-- `Game.play_round`: halves 0 and 1 with the full player set; equal
losers decide the round, otherwise a tie-break half (index 2) between
`[loser of half 0, loser of half 1]` — in that order, so the half-0 loser
starts — decides it.  `none` covers the `StopIteration` path when a half
ends without a loser while the other has one. -/
def playRound (players : List Int) (outs0 outs1 outs2 : List Outcome) :
    Option RoundResult :=
  (playHalf players outs0).bind fun h0 =>
  (playHalf players outs1).bind fun h1 =>
  if h0.lost_by = h1.lost_by then
    some { halves := [(players, h0), (players, h1)], lost_by := h0.lost_by }
  else
    h0.lost_by.bind fun l0 =>
    h1.lost_by.bind fun l1 =>
    (playHalf [l0, l1] outs2).map fun h2 =>
      { halves := [(players, h0), (players, h1), ([l0, l1], h2)],
        lost_by := h2.lost_by }

/-- A mini-round outcome whose best hand is a Schock-out: player 0 rolled
it, player 1 lost the mini-round. -/
def soOutcome : Outcome :=
  { best_pid := 0, lost_pid := 1, bestType := { hand_type := "Schock-out" } }

/-- A mini-round outcome with best hand Schock-5 for player 0, lost by
player 1. -/
def schock5Outcome : Outcome :=
  { best_pid := 0, lost_pid := 1, bestType := { hand_type := "Schock", hand_type_value := 5 } }

/-- A mini-round outcome with best hand Schock-out for player 1, lost by
player 0. -/
def soOutcomeRev : Outcome :=
  { best_pid := 1, lost_pid := 0, bestType := { hand_type := "Schock-out" } }

/-- The half state after one Schock-5 mini-round of two players lost by
player 1: 5 chips moved from the stock to player 1. -/
def c5PreState : HalfState :=
  { chips_in_stock := 8, balances := Function.update (fun _ => 0) 1 5,
    stock_chips_gone := false, lost_by := none, mini_round_index := 1 }

/-- The two play_turn hands of the C4 witness mini-round: player 0 with
General-6 and player 1 with a Schock-out. -/
def c4Results : List (Int × Hand) :=
  [(0, { dice := [{ value := 6 }, { value := 6 }, { value := 6 }],
         hand_type_cache := some { hand_type := "General", hand_type_value := 6 } }),
   (1, { dice := [{ value := 1 }, { value := 1 }, { value := 1 }],
         hand_type_cache := some { hand_type := "Schock-out" } })]

/-- Python `die in <list>` where the list holds references to dice of the
hand: `refs` are positions into `dice` (the embedding of those Python
object references), and membership compares `d` by dataclass value
equality against the current state of each referenced die. -/
def dieInRefs (dice : List Die) (d : Die) (refs : List Nat) : Bool :=
  refs.any fun i => ((dice.get? i).map (fun x => x == d)).getD false

/-- `BasePlayer.take_out_ones`: every die of a non-finalized hand that is
not (by value) in `dice_processed` and shows a 1 is set aside via
`make_a_one` and appended to `dice_processed`.  `dice_to_process` is the
list of references computed up front; positions play the references. -/
def take_out_ones (h : Hand) (processed : List Nat) : Option (Hand × List Nat) :=
  if h.finalized then none
  else
    let dtp := (List.range h.dice.length).filter fun i =>
      match h.dice.get? i with
      | some d => !(dieInRefs h.dice d processed)
      | none => false
    let res := (List.range h.dice.length).foldl
      (fun (st : List Die × List Nat) i =>
        match st.1.get? i with
        | some d =>
            if dieInRefs st.1 d dtp then
              if d.value == 1 then (st.1.set i d.make_a_one, st.2 ++ [i])
              else st
            else st
        | none => st)
      (h.dice, processed)
    some ({ h with dice := res.1 }, res.2)

/-- `BasePlayer.convert_sixes`: with three unprocessed sixes the first
two dice of the hand are converted to ones; with exactly two, the first
unprocessed six is converted; otherwise nothing happens.  Requires a
non-finalized 3-dice hand. -/
def convert_sixes (h : Hand) (processed : List Nat) : Option (Hand × List Nat) :=
  if h.finalized then none
  else if h.dice.length ≠ 3 then none
  else
    let dtp := (List.range h.dice.length).filter fun i =>
      match h.dice.get? i with
      | some d => !(dieInRefs h.dice d processed)
      | none => false
    let sixes := (dtp.filter fun i =>
      match h.dice.get? i with
      | some d => d.value == 6
      | none => false).length
    if sixes = 3 then
      let res := ([0, 1] : List Nat).foldl
        (fun (st : List Die × List Nat) i =>
          match st.1.get? i with
          | some d => (st.1.set i d.make_a_one, st.2 ++ [i])
          | none => st)
        (h.dice, processed)
      some ({ h with dice := res.1 }, res.2)
    else if sixes = 2 then
      let res := (List.range h.dice.length).foldl
        (fun (st : List Die × List Nat × Bool) i =>
          if st.2.2 then st
          else
            match st.1.get? i with
            | some d =>
                if dieInRefs st.1 d dtp && d.value == 6 then
                  (st.1.set i d.make_a_one, st.2.1 ++ [i], true)
                else st
            | none => st)
        (h.dice, processed, false)
      some ({ h with dice := res.1 }, res.2.1)
    else some (h, processed)

/-- `BasePlayer._throw_new_hand`.  `rolls` supplies the results of the
`random.randint(1, 6)` calls in order starting at index `rollIdx`; the
returned number is the index after the last roll consumed, i.e. it counts
the dice actually thrown.  In the final loop a die is thrown only when it
is not (by value) in `dice_processed`; each thrown die is appended there.
The closing `assert` comparing two in-place sorts compares `None` with
`None` and always passes; its side effect sorts the dice descending. -/
def throwNewHand (current : Hand) (rolls : Nat → Int) (rollIdx : Nat)
    (should_take_out_ones should_convert_sixes should_throw_all : Bool) :
    Option (Hand × Nat) := do
  let nh ← current.copyHand
  let (nh1, proc1) ←
    if should_throw_all then pure (nh, ([] : List Nat))
    else do
      let (a, p) ← if should_take_out_ones then take_out_ones nh []
                   else pure (nh, ([] : List Nat))
      if should_convert_sixes then convert_sixes a p else pure (a, p)
  let res := (List.range nh1.dice.length).foldl
    (fun (st : List Die × List Nat × Nat) i =>
      match st.1.get? i with
      | some d =>
          if dieInRefs st.1 d st.2.1 then st
          else (st.1.set i (d.throwWith (rolls st.2.2)), st.2.1 ++ [i], st.2.2 + 1)
      | none => st)
    (nh1.dice, proc1, rollIdx)
  let nh2 := { nh1 with dice := res.1 }
  if nh2.dice.length = 3 then pure (nh2.sortDice, res.2.2) else none

/-- A roll supply whose first roll is a 3 and whose later rolls are 5:
if a die is not rerolled, its value cannot have come from these rolls
beyond the first. -/
def c8Rolls : Nat → Int := fun i => if i = 0 then 3 else 5

/- ======================== theorems ======================== -/

/-- C1: for every hand of exactly three dice with values in [1,6],
category determination is total and deterministic and follows the claimed
precedence (Schock-out, Schock, General, Straight with the
put-together exception for 1-2-3, High Dice of the descending digits);
every High Dice value lies in [221, 665] and every produced `HandType`
passes its validation. -/
theorem C1_detemine_hand_type_follows_spec :
    ∀ (a b c : Fin 6) (pt : Bool),
      ((handOfValues pt
            [((a : Nat) : Int) + 1, ((b : Nat) : Int) + 1,
             ((c : Nat) : Int) + 1]).update.bind Hand.hand_type_cache)
        = some (categorySpec pt (((a : Nat) : Int) + 1) (((b : Nat) : Int) + 1)
            (((c : Nat) : Int) + 1))
      ∧ ((categorySpec pt (((a : Nat) : Int) + 1) (((b : Nat) : Int) + 1)
            (((c : Nat) : Int) + 1)).hand_type = "High Dice" →
          221 ≤ (categorySpec pt (((a : Nat) : Int) + 1) (((b : Nat) : Int) + 1)
            (((c : Nat) : Int) + 1)).hand_type_value ∧
          (categorySpec pt (((a : Nat) : Int) + 1) (((b : Nat) : Int) + 1)
            (((c : Nat) : Int) + 1)).hand_type_value ≤ 665)
      ∧ (categorySpec pt (((a : Nat) : Int) + 1) (((b : Nat) : Int) + 1)
          (((c : Nat) : Int) + 1)).postInitOk = true := by
  decide

/-- Every valid `HandType` has a defined `internal_rank` lying in its
category's band (Schock-out 5000, Schock 4002-4006, General 3002-3006,
Straight 2001-2004, High Dice 1221-1665). -/
theorem HandType.rank_shape (ht : HandType) (hv : ht.postInitOk = true) :
    ∃ r : Int, ht.internal_rank = some r ∧
      ((ht.hand_type = "Schock-out" ∧ r = 5000) ∨
       (ht.hand_type = "Schock" ∧ r = 4000 + ht.hand_type_value ∧ 4002 ≤ r ∧ r ≤ 4006) ∨
       (ht.hand_type = "General" ∧ r = 3000 + ht.hand_type_value ∧ 3002 ≤ r ∧ r ≤ 3006) ∨
       (ht.hand_type = "Straight" ∧ r = 2000 + ht.hand_type_value ∧ 2001 ≤ r ∧ r ≤ 2004) ∨
       (ht.hand_type = "High Dice" ∧ r = 1000 + ht.hand_type_value ∧ 1221 ≤ r ∧ r ≤ 1665)) := by
  obtain ⟨t, v⟩ := ht
  by_cases c1 : t = "Schock-out"
  · subst c1; exact ⟨5000, rfl, Or.inl ⟨rfl, rfl⟩⟩
  by_cases c2 : t = "Schock"
  · subst c2; simp [HandType.postInitOk] at hv
    exact ⟨4000 + v, rfl, Or.inr (Or.inl ⟨rfl, rfl, by omega, by omega⟩)⟩
  by_cases c3 : t = "General"
  · subst c3; simp [HandType.postInitOk] at hv
    exact ⟨3000 + v, rfl, Or.inr (Or.inr (Or.inl ⟨rfl, rfl, by omega, by omega⟩))⟩
  by_cases c4 : t = "Straight"
  · subst c4; simp [HandType.postInitOk] at hv
    exact ⟨2000 + v, rfl, Or.inr (Or.inr (Or.inr (Or.inl ⟨rfl, rfl, by omega, by omega⟩)))⟩
  by_cases c5 : t = "High Dice"
  · subst c5; simp [HandType.postInitOk] at hv
    exact ⟨1000 + v, rfl, Or.inr (Or.inr (Or.inr (Or.inr ⟨rfl, rfl, by omega, by omega⟩)))⟩
  · exfalso; simp [HandType.postInitOk, c1, c2, c3, c4, c5] at hv

/-- Every valid `HandType` has a defined chip value, between 1 and 13. -/
theorem HandType.chips_shape (ht : HandType) (hv : ht.postInitOk = true) :
    ∃ c : Int, ht.chips = some c ∧ 1 ≤ c ∧ c ≤ 13 := by
  obtain ⟨t, v⟩ := ht
  by_cases c1 : t = "Schock-out"
  · subst c1; exact ⟨13, rfl, by omega, by omega⟩
  by_cases c2 : t = "Schock"
  · subst c2; simp [HandType.postInitOk] at hv
    exact ⟨v, rfl, by omega, by omega⟩
  by_cases c3 : t = "General"
  · subst c3; exact ⟨3, rfl, by omega, by omega⟩
  by_cases c4 : t = "Straight"
  · subst c4; exact ⟨2, rfl, by omega, by omega⟩
  by_cases c5 : t = "High Dice"
  · subst c5; exact ⟨1, rfl, by omega, by omega⟩
  · exfalso; simp [HandType.postInitOk, c1, c2, c3, c4, c5] at hv

/-- `__lt__` computed from known ranks. -/
theorem HandType.htLt_of_ranks {a b : HandType} {ra rb : Int}
    (ha : a.internal_rank = some ra) (hb : b.internal_rank = some rb) :
    a.htLt b = some (decide (ra < rb)) := by
  simp [HandType.htLt, ha, hb]

/-- `__eq__` computed from known ranks. -/
theorem HandType.htEq_of_ranks {a b : HandType} {ra rb : Int}
    (ha : a.internal_rank = some ra) (hb : b.internal_rank = some rb) :
    a.htEq b = some (decide (ra = rb)) := by
  simp [HandType.htEq, ha, hb]

/-- C2: on valid `HandType` values the comparison is a strict total order
(transitive, asymmetric, trichotomous with `__eq__` as the equality),
equal rank forces equal category (the internal ranks of distinct
categories never overlap), the category bands order
High Dice < Straight < General < Schock < Schock-out, and inside a
parametrized category the order is by the numeric parameter ascending. -/
theorem C2_handtype_order (h1 h2 h3 : HandType) (hv1 : h1.postInitOk = true)
    (hv2 : h2.postInitOk = true) (hv3 : h3.postInitOk = true) :
    (h1.htLt h2 = some true → h2.htLt h3 = some true → h1.htLt h3 = some true)
    ∧ (h1.htLt h2 = some true → h2.htLt h1 = some false)
    ∧ (h1.htLt h2 = some true ∨ h1.htEq h2 = some true ∨ h2.htLt h1 = some true)
    ∧ (h1.htEq h2 = some true → h1.htLt h2 = some false ∧ h2.htLt h1 = some false)
    ∧ (h1.htEq h2 = some true → h1.hand_type = h2.hand_type)
    ∧ (h1.hand_type = "High Dice" → h2.hand_type = "Straight" → h1.htLt h2 = some true)
    ∧ (h1.hand_type = "Straight" → h2.hand_type = "General" → h1.htLt h2 = some true)
    ∧ (h1.hand_type = "General" → h2.hand_type = "Schock" → h1.htLt h2 = some true)
    ∧ (h1.hand_type = "Schock" → h2.hand_type = "Schock-out" → h1.htLt h2 = some true)
    ∧ (h1.hand_type = h2.hand_type → h1.hand_type ≠ "Schock-out" →
        (h1.htLt h2 = some true ↔ h1.hand_type_value < h2.hand_type_value)) := by
  obtain ⟨r1, hr1, hs1⟩ := HandType.rank_shape h1 hv1
  obtain ⟨r2, hr2, hs2⟩ := HandType.rank_shape h2 hv2
  obtain ⟨r3, hr3, hs3⟩ := HandType.rank_shape h3 hv3
  refine ⟨?_, ?_, ?_, ?_, ?_, ?_, ?_, ?_, ?_, ?_⟩
  · intro p q
    rw [HandType.htLt_of_ranks hr1 hr2] at p
    rw [HandType.htLt_of_ranks hr2 hr3] at q
    rw [HandType.htLt_of_ranks hr1 hr3]
    simp at p q ⊢; omega
  · intro p
    rw [HandType.htLt_of_ranks hr1 hr2] at p
    rw [HandType.htLt_of_ranks hr2 hr1]
    simp at p ⊢; omega
  · rw [HandType.htLt_of_ranks hr1 hr2, HandType.htEq_of_ranks hr1 hr2,
      HandType.htLt_of_ranks hr2 hr1]
    simp; omega
  · intro p
    rw [HandType.htEq_of_ranks hr1 hr2] at p
    rw [HandType.htLt_of_ranks hr1 hr2, HandType.htLt_of_ranks hr2 hr1]
    simp at p ⊢; omega
  · intro p
    rw [HandType.htEq_of_ranks hr1 hr2] at p
    simp at p
    rcases hs1 with ⟨hc1, e1⟩ | ⟨hc1, e1, b1, b1'⟩ | ⟨hc1, e1, b1, b1'⟩ |
      ⟨hc1, e1, b1, b1'⟩ | ⟨hc1, e1, b1, b1'⟩ <;>
    rcases hs2 with ⟨hc2, e2⟩ | ⟨hc2, e2, b2, b2'⟩ | ⟨hc2, e2, b2, b2'⟩ |
      ⟨hc2, e2, b2, b2'⟩ | ⟨hc2, e2, b2, b2'⟩ <;>
    simp_all <;> omega
  · intro t1 t2
    rw [HandType.htLt_of_ranks hr1 hr2]
    rcases hs1 with ⟨hc1, e1⟩ | ⟨hc1, e1, b1, b1'⟩ | ⟨hc1, e1, b1, b1'⟩ |
      ⟨hc1, e1, b1, b1'⟩ | ⟨hc1, e1, b1, b1'⟩ <;>
    rcases hs2 with ⟨hc2, e2⟩ | ⟨hc2, e2, b2, b2'⟩ | ⟨hc2, e2, b2, b2'⟩ |
      ⟨hc2, e2, b2, b2'⟩ | ⟨hc2, e2, b2, b2'⟩ <;>
    simp_all <;> omega
  · intro t1 t2
    rw [HandType.htLt_of_ranks hr1 hr2]
    rcases hs1 with ⟨hc1, e1⟩ | ⟨hc1, e1, b1, b1'⟩ | ⟨hc1, e1, b1, b1'⟩ |
      ⟨hc1, e1, b1, b1'⟩ | ⟨hc1, e1, b1, b1'⟩ <;>
    rcases hs2 with ⟨hc2, e2⟩ | ⟨hc2, e2, b2, b2'⟩ | ⟨hc2, e2, b2, b2'⟩ |
      ⟨hc2, e2, b2, b2'⟩ | ⟨hc2, e2, b2, b2'⟩ <;>
    simp_all <;> omega
  · intro t1 t2
    rw [HandType.htLt_of_ranks hr1 hr2]
    rcases hs1 with ⟨hc1, e1⟩ | ⟨hc1, e1, b1, b1'⟩ | ⟨hc1, e1, b1, b1'⟩ |
      ⟨hc1, e1, b1, b1'⟩ | ⟨hc1, e1, b1, b1'⟩ <;>
    rcases hs2 with ⟨hc2, e2⟩ | ⟨hc2, e2, b2, b2'⟩ | ⟨hc2, e2, b2, b2'⟩ |
      ⟨hc2, e2, b2, b2'⟩ | ⟨hc2, e2, b2, b2'⟩ <;>
    simp_all <;> omega
  · intro t1 t2
    rw [HandType.htLt_of_ranks hr1 hr2]
    rcases hs1 with ⟨hc1, e1⟩ | ⟨hc1, e1, b1, b1'⟩ | ⟨hc1, e1, b1, b1'⟩ |
      ⟨hc1, e1, b1, b1'⟩ | ⟨hc1, e1, b1, b1'⟩ <;>
    rcases hs2 with ⟨hc2, e2⟩ | ⟨hc2, e2, b2, b2'⟩ | ⟨hc2, e2, b2, b2'⟩ |
      ⟨hc2, e2, b2, b2'⟩ | ⟨hc2, e2, b2, b2'⟩ <;>
    simp_all <;> omega
  · intro te hne
    rw [HandType.htLt_of_ranks hr1 hr2]
    rcases hs1 with ⟨hc1, e1⟩ | ⟨hc1, e1, b1, b1'⟩ | ⟨hc1, e1, b1, b1'⟩ |
      ⟨hc1, e1, b1, b1'⟩ | ⟨hc1, e1, b1, b1'⟩ <;>
    rcases hs2 with ⟨hc2, e2⟩ | ⟨hc2, e2, b2, b2'⟩ | ⟨hc2, e2, b2, b2'⟩ |
      ⟨hc2, e2, b2, b2'⟩ | ⟨hc2, e2, b2, b2'⟩ <;>
    simp_all

/-- Witness for C2 at High Dice 221, Straight 1, Schock-out. -/
theorem C2_handtype_order_witness :
    (HandType.mk "High Dice" 221).postInitOk = true
    ∧ (HandType.mk "Straight" 1).postInitOk = true
    ∧ (HandType.mk "Schock-out" 0).postInitOk = true
    ∧ (((HandType.mk "High Dice" 221).htLt (HandType.mk "Straight" 1) = some true →
          (HandType.mk "Straight" 1).htLt (HandType.mk "Schock-out" 0) = some true →
          (HandType.mk "High Dice" 221).htLt (HandType.mk "Schock-out" 0) = some true)
      ∧ ((HandType.mk "High Dice" 221).htLt (HandType.mk "Straight" 1) = some true →
          (HandType.mk "Straight" 1).htLt (HandType.mk "High Dice" 221) = some false)
      ∧ ((HandType.mk "High Dice" 221).htLt (HandType.mk "Straight" 1) = some true
          ∨ (HandType.mk "High Dice" 221).htEq (HandType.mk "Straight" 1) = some true
          ∨ (HandType.mk "Straight" 1).htLt (HandType.mk "High Dice" 221) = some true)
      ∧ ((HandType.mk "High Dice" 221).htEq (HandType.mk "Straight" 1) = some true →
          (HandType.mk "High Dice" 221).htLt (HandType.mk "Straight" 1) = some false
          ∧ (HandType.mk "Straight" 1).htLt (HandType.mk "High Dice" 221) = some false)
      ∧ ((HandType.mk "High Dice" 221).htEq (HandType.mk "Straight" 1) = some true →
          (HandType.mk "High Dice" 221).hand_type = (HandType.mk "Straight" 1).hand_type)
      ∧ ((HandType.mk "High Dice" 221).hand_type = "High Dice" →
          (HandType.mk "Straight" 1).hand_type = "Straight" →
          (HandType.mk "High Dice" 221).htLt (HandType.mk "Straight" 1) = some true)
      ∧ ((HandType.mk "High Dice" 221).hand_type = "Straight" →
          (HandType.mk "Straight" 1).hand_type = "General" →
          (HandType.mk "High Dice" 221).htLt (HandType.mk "Straight" 1) = some true)
      ∧ ((HandType.mk "High Dice" 221).hand_type = "General" →
          (HandType.mk "Straight" 1).hand_type = "Schock" →
          (HandType.mk "High Dice" 221).htLt (HandType.mk "Straight" 1) = some true)
      ∧ ((HandType.mk "High Dice" 221).hand_type = "Schock" →
          (HandType.mk "Straight" 1).hand_type = "Schock-out" →
          (HandType.mk "High Dice" 221).htLt (HandType.mk "Straight" 1) = some true)
      ∧ ((HandType.mk "High Dice" 221).hand_type = (HandType.mk "Straight" 1).hand_type →
          (HandType.mk "High Dice" 221).hand_type ≠ "Schock-out" →
          ((HandType.mk "High Dice" 221).htLt (HandType.mk "Straight" 1) = some true ↔
            (HandType.mk "High Dice" 221).hand_type_value <
              (HandType.mk "Straight" 1).hand_type_value))) :=
  ⟨by decide, by decide, by decide,
    C2_handtype_order (HandType.mk "High Dice" 221) (HandType.mk "Straight" 1)
      (HandType.mk "Schock-out" 0) (by decide) (by decide) (by decide)⟩

/-- C7 (code bug): finalizing the freshly thrown hand 4-3-2 succeeds and
sets `finalized`, yet every die stays invisible — the code never marks
dice visible in `finalize`, contradicting the claim (and the function's
own docstring and `test_hand_finalize`). -/
theorem C7_finalize_leaves_fresh_dice_invisible :
    (c7Hand.bind Hand.finalize).map
        (fun h => (h.finalized, h.dice.all (fun d => !d.visible)))
      = some (true, true) := by
  decide

/-- C10 counterexample: a hand whose dice were set to a single die through
the public `dice` setter after a 3-dice category had been cached.  Its
dice list has length 1, yet `detemine_hand_type` left the stale category
in place and reading `hand_type` returns `Schock-2` instead of raising. -/
theorem C10_stale_cache_counterexample :
    c10StaleHand.map (fun h => (h.dice.length, h.handTypeProp))
      = some (1, some (HandType.mk "Schock" 2)) := by
  decide

/-- C10 (amended): on a hand without exactly 3 dice,
`detemine_hand_type` returns early leaving the hand — including its
cached category — unchanged; if the category was never determined (the
cache is `None`, e.g. a freshly constructed empty `Hand`), reading the
`hand_type` property raises `ValueError`. -/
theorem C10_undetermined_hand_type_raises (h : Hand) (hlen : h.dice.length ≠ 3) :
    h.detemineHandType = some h
    ∧ (h.hand_type_cache = none → h.handTypeProp = none) := by
  constructor
  · simp [Hand.detemineHandType, hlen]
  · intro hc
    simp [Hand.handTypeProp, hc]

/-- Witness for C10 (amended) at the freshly constructed empty hand. -/
theorem C10_undetermined_hand_type_raises_witness :
    ((({} : Hand)).dice.length ≠ 3)
    ∧ ((({} : Hand)).detemineHandType = some {}
        ∧ ((({} : Hand)).hand_type_cache = none → (({} : Hand)).handTypeProp = none)) :=
  ⟨by decide, C10_undetermined_hand_type_raises {} (by decide)⟩

/-- C9: every hand of the canonical enumeration round-trips through
`to_name`/`from_name` with the same category (`__eq__`, i.e. equal
`internal_rank`); in particular "Motte" maps to High Dice 221,
"Schock-out" to Schock-out, and the assembled 1-2-3 hand is named
"32-1" and comes back as High Dice 321, not Straight 1. -/
theorem C9_roundtrip_names :
    (Hand.get_all_possible_hands.map (fun hands =>
        hands.all fun h =>
          match h.handTypeProp.bind HandType.internal_rank with
          | some r =>
              (((h.to_name.bind Hand.from_name).bind
                  Hand.handTypeProp).bind HandType.internal_rank) == some r
          | none => false)) = some true
    ∧ (Hand.from_name "Motte".data).bind Hand.handTypeProp
        = some (HandType.mk "High Dice" 221)
    ∧ (Hand.from_name "Schock-out".data).bind Hand.handTypeProp
        = some (HandType.mk "Schock-out" 0)
    ∧ (Hand.from_name "32-1".data).bind Hand.handTypeProp
        = some (HandType.mk "High Dice" 321)
    ∧ ((handOfValues true [3, 2, 1]).update.bind Hand.to_name) = some "32-1".data
    ∧ ((handOfValues false [2, 2, 1]).update.bind Hand.to_name) = some "Motte".data := by
  decide

theorem mapM_option_forall2 {α β : Type} {f : α → Option β} :
    ∀ {l : List α} {l2 : List β}, l.mapM f = some l2 →
      List.Forall₂ (fun x y => f x = some y) l l2 := by
  intro l
  induction l with
  | nil =>
      intro l2 h
      simp only [List.mapM_nil, pure, Option.some.injEq] at h
      subst h
      exact List.Forall₂.nil
  | cons a l ih =>
      intro l2 h
      rw [List.mapM_cons] at h
      cases hfa : f a with
      | none => rw [hfa] at h; simp at h
      | some y =>
          rw [hfa] at h
          cases hl : l.mapM f with
          | none => rw [hl] at h; simp at h
          | some ys =>
              rw [hl] at h
              simp at h
              subst h
              exact List.Forall₂.cons hfa (ih hl)

theorem mapM_option_total {α β : Type} {f : α → Option β} :
    ∀ {l : List α}, (∀ x ∈ l, ∃ y, f x = some y) →
      ∃ l2, l.mapM f = some l2 := by
  intro l
  induction l with
  | nil => intro _; exact ⟨[], rfl⟩
  | cons a l ih =>
      intro h
      obtain ⟨y, hy⟩ := h a (by simp)
      obtain ⟨l2, hl2⟩ := ih (fun x hx => h x (by simp [hx]))
      exact ⟨y :: l2, by rw [List.mapM_cons, hy, hl2]; simp [pure]⟩

theorem forall2_mem_right {α β : Type} {R : α → β → Prop} :
    ∀ {l : List α} {l2 : List β}, List.Forall₂ R l l2 →
      ∀ y ∈ l2, ∃ x ∈ l, R x y := by
  intro l l2 h
  induction h with
  | nil => simp
  | cons hr _ ih =>
      intro y hy
      rcases List.mem_cons.mp hy with rfl | hy
      · exact ⟨_, List.mem_cons_self _ _, hr⟩
      · obtain ⟨x, hx, hxr⟩ := ih y hy
        exact ⟨x, List.mem_cons_of_mem _ hx, hxr⟩

theorem sorted_head_rel {α : Type} {r : α → α → Prop} (hrefl : ∀ x, r x x) :
    ∀ {l : List α} {a : α}, l.Sorted r → l.head? = some a →
      ∀ x ∈ l, r a x := by
  intro l a hs hh x hx
  cases l with
  | nil => simp at hh
  | cons b t =>
      simp only [List.head?_cons, Option.some.injEq] at hh
      subst hh
      rcases List.mem_cons.mp hx with rfl | hx
      · exact hrefl _
      · exact (List.sorted_cons.mp hs).1 x hx

theorem sorted_getLast_rel {α : Type} {r : α → α → Prop} (hrefl : ∀ x, r x x) :
    ∀ {l : List α} {m : α}, l.Sorted r → l.getLast? = some m →
      ∀ x ∈ l, r x m := by
  intro l
  induction l with
  | nil => simp
  | cons a t ih =>
      intro m hs hl x hx
      cases t with
      | nil =>
          simp only [List.getLast?_singleton, Option.some.injEq] at hl
          subst hl
          simp at hx
          subst hx
          exact hrefl _
      | cons b t2 =>
          rw [List.getLast?_cons_cons] at hl
          rcases List.mem_cons.mp hx with rfl | hx
          · have hm : m ∈ b :: t2 := List.mem_of_mem_getLast? (by simp [hl])
            exact (List.sorted_cons.mp hs).1 m hm
          · exact ih hs.of_cons hl x hx

theorem getLast_exists_of_ne_nil {α : Type} :
    ∀ {l : List α}, l ≠ [] → ∃ y, l.getLast? = some y := by
  intro l
  induction l with
  | nil => intro h; exact absurd rfl h
  | cons a t ih =>
      intro _
      cases t with
      | nil => exact ⟨a, rfl⟩
      | cons b t2 =>
          obtain ⟨y, hy⟩ := ih (by simp)
          exact ⟨y, by rw [List.getLast?_cons_cons]; exact hy⟩

theorem turnKeyOf_shape {t : Turn} {y : Turn × Int} (h : turnKeyOf t = some y) :
    y.1 = t ∧ ∃ ht, t.final_hand.handTypeProp = some ht ∧
      ht.internal_rank = some y.2 := by
  unfold turnKeyOf at h
  simp only [Option.pure_def, Option.bind_eq_bind, Option.bind_eq_some] at h
  obtain ⟨ht, hht, h2⟩ := h
  obtain ⟨r, hr, h3⟩ := h2
  rw [Option.some.injEq] at h3
  subst h3
  exact ⟨rfl, ht, hht, hr⟩

theorem turnLt_eval {a b : Turn} {hta htb : HandType} {ra rb : Int}
    (ha : a.final_hand.handTypeProp = some hta) (hra : hta.internal_rank = some ra)
    (hb : b.final_hand.handTypeProp = some htb) (hrb : htb.internal_rank = some rb) :
    Turn.turnLt a b = some (if ra = rb
      then decide (b.final_hand.players_turn_ind < a.final_hand.players_turn_ind)
      else decide (ra < rb)) := by
  simp only [Turn.turnLt, Hand.hLt, ha, hb, hra, hrb, Option.bind_some]
  split <;> simp_all

theorem chips_spec (ht : HandType) (hv : ht.postInitOk = true) :
    ht.chips = some (if ht.hand_type = "Schock-out" then 13
      else if ht.hand_type = "Schock" then ht.hand_type_value
      else if ht.hand_type = "General" then 3
      else if ht.hand_type = "Straight" then 2 else 1) := by
  obtain ⟨t, v⟩ := ht
  by_cases c1 : t = "Schock-out"
  · subst c1; simp [HandType.chips]
  by_cases c2 : t = "Schock"
  · subst c2; simp [HandType.chips]
  by_cases c3 : t = "General"
  · subst c3; simp [HandType.chips, c1]
  by_cases c4 : t = "Straight"
  · subst c4; simp [HandType.chips, c1, c2, c3]
  by_cases c5 : t = "High Dice"
  · subst c5; simp [HandType.chips, c1, c2, c3, c4]
  · exfalso; simp [HandType.postInitOk, c1, c2, c3, c4, c5] at hv

theorem turnKeyLe_refl : ∀ x, turnKeyLe x x := by
  intro x; exact Or.inr ⟨rfl, le_refl _⟩

theorem C4_play_mini_round (results : List (Int × Hand))
    (hval : ∀ p ∈ results, p.2.dice.length = 3 ∧
       ∃ ht, p.2.hand_type_cache = some ht ∧ ht.postInitOk = true) :
    (results.length < 2 ∨ 50 < results.length → playMiniRound results = none)
    ∧ (2 ≤ results.length → results.length ≤ 50 →
      ∃ mr worst best, playMiniRound results = some mr
        ∧ mr.worst_turn = some worst ∧ mr.best_turn = some best
        ∧ worst ∈ mr.turns ∧ best ∈ mr.turns
        ∧ (∀ t ∈ mr.turns, Turn.turnLt t worst = some false)
        ∧ (∀ t ∈ mr.turns, Turn.turnLt best t = some false)
        ∧ mr.lost_by = some worst.player_id
        ∧ (∃ htb, best.final_hand.hand_type_cache = some htb ∧
            mr.given_chips = (if htb.hand_type = "Schock-out" then 13
              else if htb.hand_type = "Schock" then htb.hand_type_value
              else if htb.hand_type = "General" then 3
              else if htb.hand_type = "Straight" then 2 else 1))
        ∧ (∀ t ∈ mr.turns, ∀ r : Int,
            t.final_hand.handTypeProp.bind HandType.internal_rank = some r →
            best.final_hand.handTypeProp.bind HandType.internal_rank = some r →
            best.final_hand.players_turn_ind ≤ t.final_hand.players_turn_ind)
        ∧ (∀ t ∈ mr.turns, ∀ r : Int,
            t.final_hand.handTypeProp.bind HandType.internal_rank = some r →
            worst.final_hand.handTypeProp.bind HandType.internal_rank = some r →
            t.final_hand.players_turn_ind ≤ worst.final_hand.players_turn_ind)) := by
  constructor
  · intro hbad
    unfold playMiniRound
    rw [if_pos hbad]
  intro h2 h50
  have hguard : ¬(results.length < 2 ∨ 50 < results.length) := by omega
  set turns := ((List.range results.length).zip results).map (fun p =>
      { turn_index := p.1, player_id := p.2.1,
        final_hand := { p.2.2 with players_turn_ind := p.1 } : Turn })
    with hturns_def
  have hturn_valid : ∀ t ∈ turns, t.final_hand.dice.length = 3 ∧
      ∃ ht, t.final_hand.hand_type_cache = some ht ∧ ht.postInitOk = true := by
    intro t ht
    rw [hturns_def] at ht
    obtain ⟨p, hp, rfl⟩ := List.mem_map.mp ht
    obtain ⟨hd, ht0, hc, hvld⟩ := hval p.2 (List.of_mem_zip hp).2
    exact ⟨hd, ht0, hc, hvld⟩
  have hkey : ∀ t ∈ turns, ∃ y, turnKeyOf t = some y := by
    intro t ht
    obtain ⟨_, ht0, hc, hvld⟩ := hturn_valid t ht
    obtain ⟨r, hr, _⟩ := HandType.rank_shape ht0 hvld
    exact ⟨(t, r), by simp [turnKeyOf, Hand.handTypeProp, hc, hr]⟩
  obtain ⟨keyed, hkeyed⟩ := mapM_option_total hkey
  have hf2 := mapM_option_forall2 hkeyed
  have hkey_mem : ∀ y ∈ keyed, y.1 ∈ turns ∧ turnKeyOf y.1 = some y := by
    intro y hy
    obtain ⟨x, hx, hxy⟩ := forall2_mem_right hf2 y hy
    obtain ⟨hy1, _⟩ := turnKeyOf_shape hxy
    rw [hy1]
    exact ⟨hx, hxy⟩
  set sortedK := keyed.insertionSort turnKeyLe with hsortedK
  have hperm : sortedK.Perm keyed := by
    rw [hsortedK]; exact List.perm_insertionSort turnKeyLe keyed
  have hsorted : sortedK.Sorted turnKeyLe := by
    rw [hsortedK]; exact List.sorted_insertionSort turnKeyLe keyed
  have hlen_t : turns.length = results.length := by
    rw [hturns_def]; simp
  have hlen_k : keyed.length = turns.length := (List.Forall₂.length_eq hf2).symm
  have hlen_s : sortedK.length = keyed.length := hperm.length_eq
  have hne : sortedK ≠ [] := by
    intro h0
    rw [h0] at hlen_s
    simp at hlen_s
    omega
  obtain ⟨headK, hheadK⟩ : ∃ y, sortedK.head? = some y := by
    cases hsk : sortedK with
    | nil => exact absurd hsk hne
    | cons a t => exact ⟨a, rfl⟩
  obtain ⟨lastK, hlastK⟩ := getLast_exists_of_ne_nil hne
  have hheadK_mem : headK ∈ sortedK := List.mem_of_mem_head? (by simp [hheadK])
  have hlastK_mem : lastK ∈ sortedK := List.mem_of_mem_getLast? (by simp [hlastK])
  have hhead_keyed := hkey_mem headK (hperm.mem_iff.mp hheadK_mem)
  have hlast_keyed := hkey_mem lastK (hperm.mem_iff.mp hlastK_mem)
  obtain ⟨_, htw, hw_prop, hw_rank⟩ := turnKeyOf_shape hhead_keyed.2
  obtain ⟨_, htb, hb_prop, hb_rank⟩ := turnKeyOf_shape hlast_keyed.2
  obtain ⟨hbd, htb2, hcb, hvb⟩ := hturn_valid lastK.1 hlast_keyed.1
  have htb_eq : htb = htb2 := by
    rw [Hand.handTypeProp, hcb, Option.some.injEq] at hb_prop
    exact hb_prop.symm
  have hchips : lastK.1.final_hand.getChipCount
      = some (if htb2.hand_type = "Schock-out" then 13
          else if htb2.hand_type = "Schock" then htb2.hand_type_value
          else if htb2.hand_type = "General" then 3
          else if htb2.hand_type = "Straight" then 2 else 1) := by
    rw [Hand.getChipCount, if_neg (by omega), Hand.handTypeProp, hcb,
      Option.some_bind]
    exact chips_spec htb2 hvb
  have hsortEq : sortTurnsByLt turns = some (sortedK.map Prod.fst) := by
    rw [sortTurnsByLt, hkeyed, Option.map_some', hsortedK]
  have hrun : playMiniRound results = some
      { turns := sortedK.map Prod.fst, worst_turn := some headK.1,
        best_turn := some lastK.1,
        given_chips := (if htb2.hand_type = "Schock-out" then 13
          else if htb2.hand_type = "Schock" then htb2.hand_type_value
          else if htb2.hand_type = "General" then 3
          else if htb2.hand_type = "Straight" then 2 else 1),
        lost_by := some headK.1.player_id } := by
    unfold playMiniRound
    rw [if_neg hguard, ← hturns_def, hsortEq, Option.some_bind,
      List.head?_map, hheadK, Option.map_some', Option.some_bind,
      List.getLast?_map, hlastK, Option.map_some', Option.some_bind,
      hchips, Option.map_some']
  have hmin : ∀ t ∈ sortedK.map Prod.fst, Turn.turnLt t headK.1 = some false := by
    intro t htm
    obtain ⟨y, hymem, rfl⟩ := List.mem_map.mp htm
    obtain ⟨_, hty, hy_prop, hy_rank⟩ := turnKeyOf_shape (hkey_mem y (hperm.mem_iff.mp hymem)).2
    have hle : turnKeyLe headK y := sorted_head_rel turnKeyLe_refl hsorted hheadK y hymem
    rw [turnLt_eval hy_prop hy_rank hw_prop hw_rank]
    rcases hle with hlt | ⟨heq, hind⟩
    · rw [if_neg (by omega)]
      simp only [Option.some.injEq, decide_eq_false_iff_not]
      omega
    · rw [if_pos (by omega)]
      simp only [Option.some.injEq, decide_eq_false_iff_not]
      omega
  have hmax : ∀ t ∈ sortedK.map Prod.fst, Turn.turnLt lastK.1 t = some false := by
    intro t htm
    obtain ⟨y, hymem, rfl⟩ := List.mem_map.mp htm
    obtain ⟨_, hty, hy_prop, hy_rank⟩ := turnKeyOf_shape (hkey_mem y (hperm.mem_iff.mp hymem)).2
    have hle : turnKeyLe y lastK := sorted_getLast_rel turnKeyLe_refl hsorted hlastK y hymem
    rw [turnLt_eval hb_prop hb_rank hy_prop hy_rank]
    rcases hle with hlt | ⟨heq, hind⟩
    · rw [if_neg (by omega)]
      simp only [Option.some.injEq, decide_eq_false_iff_not]
      omega
    · rw [if_pos (by omega)]
      simp only [Option.some.injEq, decide_eq_false_iff_not]
      omega
  have htie_best : ∀ t ∈ sortedK.map Prod.fst, ∀ r : Int,
      t.final_hand.handTypeProp.bind HandType.internal_rank = some r →
      lastK.1.final_hand.handTypeProp.bind HandType.internal_rank = some r →
      lastK.1.final_hand.players_turn_ind ≤ t.final_hand.players_turn_ind := by
    intro t htm r hrt hrb
    obtain ⟨y, hymem, rfl⟩ := List.mem_map.mp htm
    obtain ⟨_, hty, hy_prop, hy_rank⟩ := turnKeyOf_shape (hkey_mem y (hperm.mem_iff.mp hymem)).2
    rw [hy_prop, Option.some_bind, hy_rank, Option.some.injEq] at hrt
    rw [hb_prop, Option.some_bind, hb_rank, Option.some.injEq] at hrb
    have hle : turnKeyLe y lastK := sorted_getLast_rel turnKeyLe_refl hsorted hlastK y hymem
    rcases hle with hlt | ⟨heq, hind⟩
    · omega
    · omega
  have htie_worst : ∀ t ∈ sortedK.map Prod.fst, ∀ r : Int,
      t.final_hand.handTypeProp.bind HandType.internal_rank = some r →
      headK.1.final_hand.handTypeProp.bind HandType.internal_rank = some r →
      t.final_hand.players_turn_ind ≤ headK.1.final_hand.players_turn_ind := by
    intro t htm r hrt hrw
    obtain ⟨y, hymem, rfl⟩ := List.mem_map.mp htm
    obtain ⟨_, hty, hy_prop, hy_rank⟩ := turnKeyOf_shape (hkey_mem y (hperm.mem_iff.mp hymem)).2
    rw [hy_prop, Option.some_bind, hy_rank, Option.some.injEq] at hrt
    rw [hw_prop, Option.some_bind, hw_rank, Option.some.injEq] at hrw
    have hle : turnKeyLe headK y := sorted_head_rel turnKeyLe_refl hsorted hheadK y hymem
    rcases hle with hlt | ⟨heq, hind⟩
    · omega
    · omega
  exact ⟨_, headK.1, lastK.1, hrun, rfl, rfl,
    List.mem_map_of_mem _ hheadK_mem, List.mem_map_of_mem _ hlastK_mem,
    hmin, hmax, rfl, ⟨htb2, hcb, rfl⟩, htie_best, htie_worst⟩

theorem balSum_update (players : List Int) (hnd : players.Nodup) (f : Int → Int)
    (p : Int) (hp : p ∈ players) (v : Int) :
    balSum players (Function.update f p v) = balSum players f - f p + v := by
  induction players with
  | nil => simp at hp
  | cons q ps ih =>
      rcases List.mem_cons.mp hp with rfl | hp2
      · have hq : p ∉ ps := (List.nodup_cons.mp hnd).1
        have hmap : ps.map (Function.update f p v) = ps.map f :=
          List.map_congr_left fun x hx =>
            Function.update_noteq (by rintro rfl; exact hq hx) _ _
        simp only [balSum, List.map_cons, List.sum_cons, Function.update_same, hmap]
        omega
      · have hq : q ≠ p := by
          rintro rfl
          exact (List.nodup_cons.mp hnd).1 hp2
        have := ih (List.nodup_cons.mp hnd).2 hp2
        simp only [balSum, List.map_cons, List.sum_cons,
          Function.update_noteq hq] at this ⊢
        omega

theorem bal_le_of_sum (players : List Int) (f : Int → Int)
    (hpos : ∀ p ∈ players, 0 ≤ f p) (p : Int) (hp : p ∈ players) :
    f p ≤ balSum players f :=
  List.single_le_sum
    (by
      intro x hx
      obtain ⟨q, hq, rfl⟩ := List.mem_map.mp hx
      exact hpos q hq)
    (f p) (List.mem_map_of_mem f hp)

theorem checkBalances_ok (players : List Int) :
    ∀ s : HalfState, (∀ p ∈ players, 0 ≤ s.balances p ∧ s.balances p ≤ 13) →
      ∃ s2, checkBalances players s = some s2
        ∧ s2.chips_in_stock = s.chips_in_stock
        ∧ s2.balances = s.balances
        ∧ s2.stock_chips_gone = s.stock_chips_gone
        ∧ s2.mini_round_index = s.mini_round_index := by
  induction players with
  | nil => intro s _; exact ⟨s, rfl, rfl, rfl, rfl, rfl⟩
  | cons q ps ih =>
      intro s hb
      by_cases h13 : s.balances q = 13
      · obtain ⟨s2, h1, h2, h3, h4, h5⟩ := ih { s with lost_by := some q }
          (fun p hp => hb p (List.mem_cons_of_mem _ hp))
        exact ⟨s2, by rw [checkBalances, if_pos h13]; exact h1, h2, h3, h4, h5⟩
      · have hq := hb q (List.mem_cons_self _ _)
        obtain ⟨s2, h1, h2, h3, h4, h5⟩ := ih s
          (fun p hp => hb p (List.mem_cons_of_mem _ hp))
        refine ⟨s2, ?_, h2, h3, h4, h5⟩
        rw [checkBalances, if_neg h13, if_neg (by omega)]
        exact h1

theorem transferChips_inv (players : List Int) (hnd : players.Nodup)
    (s : HalfState) (o : Outcome) (chips : Int)
    (hbp : o.best_pid ∈ players) (hlp : o.lost_pid ∈ players)
    (hne : o.best_pid ≠ o.lost_pid) (hc1 : 1 ≤ chips)
    (hinv : ChipInv players s) :
    ChipInv players (transferChips s o chips) ∧
      0 ≤ (transferChips s o chips).chips_in_stock := by
  obtain ⟨hsum, hgone0, hgone1, hpos⟩ := hinv
  have hlost0 := hpos o.lost_pid hlp
  have hbest0 := hpos o.best_pid hbp
  unfold transferChips
  split_ifs with h1 h2
  · -- stock not gone, transfer caps: stock underflows, clamp to what is left
    have h1' := hgone1 h1
    have habs : |s.chips_in_stock - chips| = -(s.chips_in_stock - chips) :=
      abs_of_nonpos (by omega)
    have hup := balSum_update players hnd s.balances o.lost_pid hlp
      (s.balances o.lost_pid + (chips - |s.chips_in_stock - chips|))
    have hpos2 : ∀ p ∈ players,
        0 ≤ Function.update s.balances o.lost_pid
          (s.balances o.lost_pid + (chips - |s.chips_in_stock - chips|)) p := by
      intro p hp
      by_cases hpe : p = o.lost_pid
      · subst hpe
        rw [Function.update_same]
        omega
      · rw [Function.update_noteq hpe]
        exact hpos p hp
    refine ⟨⟨?_, fun _ => rfl, ?_, hpos2⟩, le_refl 0⟩
    · show (0 : Int) + balSum players (Function.update s.balances o.lost_pid
        (s.balances o.lost_pid + (chips - |s.chips_in_stock - chips|))) = 13
      rw [hup]
      omega
    · intro hcon
      simp at hcon
  · -- stock not gone, no cap: plain debit from the stock
    have h1' := hgone1 h1
    have hup := balSum_update players hnd s.balances o.lost_pid hlp
      (s.balances o.lost_pid + chips)
    have hpos2 : ∀ p ∈ players,
        0 ≤ Function.update s.balances o.lost_pid
          (s.balances o.lost_pid + chips) p := by
      intro p hp
      by_cases hpe : p = o.lost_pid
      · subst hpe
        rw [Function.update_same]
        omega
      · rw [Function.update_noteq hpe]
        exact hpos p hp
    refine ⟨⟨?_, ?_, ?_, hpos2⟩, ?_⟩
    · show (s.chips_in_stock - chips) + balSum players (Function.update s.balances
        o.lost_pid (s.balances o.lost_pid + chips)) = 13
      rw [hup]
      omega
    · intro hcon
      simp [h1] at hcon
    · intro _
      show (1 : Int) ≤ s.chips_in_stock - chips
      omega
    · show (0 : Int) ≤ s.chips_in_stock - chips
      omega
  · -- stock gone: debit the best player's own balance, clamped by min
    have hgt : s.stock_chips_gone = true := by
      revert h1
      cases s.stock_chips_gone <;> simp
    have h0 : s.chips_in_stock = 0 := hgone0 hgt
    have hg0 : 0 ≤ min chips (s.balances o.best_pid) := le_min (by omega) hbest0
    have hgb : min chips (s.balances o.best_pid) ≤ s.balances o.best_pid :=
      min_le_right _ _
    have hb1lost : (Function.update s.balances o.best_pid
        (s.balances o.best_pid - min chips (s.balances o.best_pid))) o.lost_pid
        = s.balances o.lost_pid :=
      Function.update_noteq (Ne.symm hne) _ _
    have hup1 := balSum_update players hnd s.balances o.best_pid hbp
      (s.balances o.best_pid - min chips (s.balances o.best_pid))
    have hup2 := balSum_update players hnd
      (Function.update s.balances o.best_pid
        (s.balances o.best_pid - min chips (s.balances o.best_pid)))
      o.lost_pid hlp
      ((Function.update s.balances o.best_pid
        (s.balances o.best_pid - min chips (s.balances o.best_pid))) o.lost_pid
       + min chips (s.balances o.best_pid))
    have hpos2 : ∀ p ∈ players,
        0 ≤ (Function.update
          (Function.update s.balances o.best_pid
            (s.balances o.best_pid - min chips (s.balances o.best_pid)))
          o.lost_pid
          ((Function.update s.balances o.best_pid
            (s.balances o.best_pid - min chips (s.balances o.best_pid))) o.lost_pid
           + min chips (s.balances o.best_pid))) p := by
      intro p hp
      by_cases hpl : p = o.lost_pid
      · subst hpl
        rw [Function.update_same, hb1lost]
        omega
      · rw [Function.update_noteq hpl]
        by_cases hpb : p = o.best_pid
        · subst hpb
          rw [Function.update_same]
          omega
        · rw [Function.update_noteq hpb]
          exact hpos p hp
    refine ⟨⟨?_, fun _ => h0, ?_, hpos2⟩, ?_⟩
    · show s.chips_in_stock + balSum players (Function.update
        (Function.update s.balances o.best_pid
          (s.balances o.best_pid - min chips (s.balances o.best_pid)))
        o.lost_pid
        ((Function.update s.balances o.best_pid
          (s.balances o.best_pid - min chips (s.balances o.best_pid))) o.lost_pid
         + min chips (s.balances o.best_pid))) = 13
      rw [hup2, hb1lost, hup1]
      omega
    · intro hcon
      simp [hgt] at hcon
    · show (0 : Int) ≤ s.chips_in_stock
      omega

theorem halfStep_inv (players : List Int) (s : HalfState) (o : Outcome)
    (hnd : players.Nodup) (hv : ValidOutcome players o) (hinv : ChipInv players s) :
    ∃ s1, halfStep players s o = some s1 ∧ ChipInv players s1 := by
  obtain ⟨hvb, hbp, hlp, hne⟩ := hv
  obtain ⟨r, hr, _⟩ := HandType.rank_shape o.bestType hvb
  obtain ⟨c, hc, hc1, hc13⟩ := HandType.chips_shape o.bestType hvb
  unfold halfStep
  rw [hr, Option.some_bind,
    show HandType.mk? "Schock-out"
      = some { hand_type := "Schock-out", hand_type_value := 0 } from rfl,
    Option.some_bind,
    show ({ hand_type := "Schock-out", hand_type_value := 0 } : HandType).internal_rank
      = some 5000 from rfl,
    Option.some_bind]
  by_cases hso : r = 5000
  · rw [if_pos hso]
    exact ⟨_, rfl, hinv.1, hinv.2.1, hinv.2.2.1, hinv.2.2.2⟩
  rw [if_neg hso, hc, Option.some_bind]
  obtain ⟨⟨hsum2, hg0, hg1, hpos2⟩, hstk2⟩ :=
    transferChips_inv players hnd s o c hbp hlp hne hc1 hinv
  obtain ⟨s3, hs3, f1, f2, f3, f4⟩ := checkBalances_ok players (transferChips s o c)
    (by
      intro p hp
      refine ⟨hpos2 p hp, ?_⟩
      have hle := bal_le_of_sum players _ hpos2 p hp
      omega)
  rw [hs3, Option.map_some']
  refine ⟨_, rfl, ?_, ?_, ?_, ?_⟩
  · show s3.chips_in_stock + balSum players s3.balances = 13
    rw [f1, f2]
    exact hsum2
  · intro hcon
    show s3.chips_in_stock = 0
    rw [f1]
    rw [show ({ s3 with mini_round_index := s3.mini_round_index + 1 }
        : HalfState).stock_chips_gone = s3.stock_chips_gone from rfl, f3] at hcon
    exact hg0 hcon
  · intro hcon
    show 1 ≤ s3.chips_in_stock
    rw [f1]
    rw [show ({ s3 with mini_round_index := s3.mini_round_index + 1 }
        : HalfState).stock_chips_gone = s3.stock_chips_gone from rfl, f3] at hcon
    exact hg1 hcon
  · intro p hp
    show 0 ≤ s3.balances p
    rw [f2]
    exact hpos2 p hp

theorem playHalfAux_inv (players : List Int) (hnd : players.Nodup) :
    ∀ (outs : List Outcome) (s : HalfState),
      (∀ o ∈ outs, ValidOutcome players o) → ChipInv players s →
      ∃ s1, playHalfAux players s outs = some s1 ∧ ChipInv players s1 := by
  intro outs
  induction outs with
  | nil => intro s _ hinv; exact ⟨s, rfl, hinv⟩
  | cons o rest ih =>
      intro s hval hinv
      by_cases hcond : s.lost_by = none ∧ s.mini_round_index < 1000
      · obtain ⟨s1, hs1, hinv1⟩ :=
          halfStep_inv players s o hnd (hval o (List.mem_cons_self _ _)) hinv
        obtain ⟨s2, hs2, hinv2⟩ :=
          ih s1 (fun o2 ho2 => hval o2 (List.mem_cons_of_mem _ ho2)) hinv1
        refine ⟨s2, ?_, hinv2⟩
        rw [playHalfAux, if_pos hcond, hs1, Option.some_bind]
        exact hs2
      · exact ⟨s, by rw [playHalfAux, if_neg hcond], hinv⟩

/-- C3: for any active player list and any sequence of valid mini-round
outcomes, `play_half` raises no exception and at the resulting mini-round
boundary (and hence, by instantiating with any prefix, at every reachable
boundary): stock plus the sum of all balances is exactly 13; the stock is
nonnegative and exactly 0 once marked exhausted, so after exhaustion
chips move only between player balances (the payer is debited at most
their own balance — balances never go negative); every balance lies in
[0, 13] and the chips in play never exceed 13. -/
theorem C3_chip_conservation (players : List Int) (outs : List Outcome)
    (hnd : players.Nodup) (hval : ∀ o ∈ outs, ValidOutcome players o) :
    ∃ s, playHalf players outs = some s
      ∧ s.chips_in_stock + balSum players s.balances = 13
      ∧ 0 ≤ s.chips_in_stock
      ∧ (s.stock_chips_gone = true → s.chips_in_stock = 0)
      ∧ (∀ p ∈ players, 0 ≤ s.balances p ∧ s.balances p ≤ 13)
      ∧ balSum players s.balances ≤ 13 := by
  have hinv0 : ChipInv players initHalfState := by
    refine ⟨?_, ?_, ?_, ?_⟩
    · show (13 : Int) + balSum players (fun _ => 0) = 13
      have : balSum players (fun _ => 0) = 0 := by
        simp [balSum]
      omega
    · intro hcon
      simp [initHalfState] at hcon
    · intro _
      show (1 : Int) ≤ 13
      omega
    · intro p _
      exact le_refl 0
  obtain ⟨s, hs, hsum, hg0, hg1, hpos⟩ := playHalfAux_inv players hnd outs
    initHalfState hval hinv0
  have hstock : 0 ≤ s.chips_in_stock := by
    cases hg : s.stock_chips_gone with
    | true => rw [hg0 hg]
    | false => have := hg1 hg; omega
  refine ⟨s, hs, hsum, hstock, hg0, ?_, ?_⟩
  · intro p hp
    refine ⟨hpos p hp, ?_⟩
    have hle := bal_le_of_sum players _ hpos p hp
    omega
  · omega

/-- Witness for C3: two players, one Schock-5 mini-round lost by
player 1. -/
theorem C3_chip_conservation_witness :
    ([0, 1] : List Int).Nodup
    ∧ (∀ o ∈ [schock5Outcome], ValidOutcome [0, 1] o)
    ∧ (∃ s, playHalf [0, 1] [schock5Outcome] = some s
        ∧ s.chips_in_stock + balSum [0, 1] s.balances = 13
        ∧ 0 ≤ s.chips_in_stock
        ∧ (s.stock_chips_gone = true → s.chips_in_stock = 0)
        ∧ (∀ p ∈ ([0, 1] : List Int), 0 ≤ s.balances p ∧ s.balances p ≤ 13)
        ∧ balSum [0, 1] s.balances ≤ 13) :=
  ⟨by decide, by decide,
    C3_chip_conservation [0, 1] [schock5Outcome] (by decide) (by decide)⟩

/-- Once the loop guard fails (a loser is set, or the 1000 mini-round
safety bound is hit), `play_half` consumes no further outcome. -/
theorem playHalfAux_stop (players : List Int) (l : List Outcome) (s : HalfState)
    (h : ¬(s.lost_by = none ∧ s.mini_round_index < 1000)) :
    playHalfAux players s l = some s := by
  cases l with
  | nil => rfl
  | cons o rest => rw [playHalfAux, if_neg h]

/-- Splitting a `play_half` run at any point. -/
theorem playHalfAux_append (players : List Int) :
    ∀ (l1 l2 : List Outcome) (s : HalfState),
      playHalfAux players s (l1 ++ l2)
        = (playHalfAux players s l1).bind fun s1 => playHalfAux players s1 l2 := by
  intro l1
  induction l1 with
  | nil => intro l2 s; rfl
  | cons o l1 ih =>
      intro l2 s
      by_cases hc : s.lost_by = none ∧ s.mini_round_index < 1000
      · rw [List.cons_append, playHalfAux, if_pos hc, playHalfAux, if_pos hc]
        cases hst : halfStep players s o with
        | none => rfl
        | some s1 =>
            rw [Option.some_bind, Option.some_bind, ih]
      · rw [List.cons_append, playHalfAux, if_neg hc, playHalfAux, if_neg hc,
          Option.some_bind]
        exact (playHalfAux_stop players l2 s hc).symm

/-- C5: if a mini-round's best hand is a Schock-out while the half is
still running, the half ends immediately: its loser is that mini-round's
loser, no chips move (stock, balances and the exhaustion flag are
unchanged), and none of the remaining outcomes is played. -/
theorem C5_schock_out_ends_half (players : List Int) (pre rest : List Outcome)
    (o : Outcome) (s : HalfState)
    (hpre : playHalf players pre = some s) (hnone : s.lost_by = none)
    (hidx : s.mini_round_index < 1000)
    (hso : o.bestType.internal_rank = some 5000) :
    playHalf players (pre ++ o :: rest)
      = some { s with
               lost_by := some o.lost_pid
               mini_round_index := s.mini_round_index + 1 } := by
  unfold playHalf at hpre ⊢
  rw [playHalfAux_append, hpre, Option.some_bind, playHalfAux,
    if_pos ⟨hnone, hidx⟩]
  unfold halfStep
  rw [hso, Option.some_bind,
    show HandType.mk? "Schock-out"
      = some { hand_type := "Schock-out", hand_type_value := 0 } from rfl,
    Option.some_bind,
    show ({ hand_type := "Schock-out", hand_type_value := 0 } : HandType).internal_rank
      = some 5000 from rfl,
    Option.some_bind, if_pos rfl, Option.some_bind]
  exact playHalfAux_stop players rest _ (by simp)

/-- Witness for C5: after one Schock-5 mini-round, a Schock-out
mini-round ends the half at once and the trailing outcome is ignored. -/
theorem C5_schock_out_ends_half_witness :
    playHalf [0, 1] [schock5Outcome] = some c5PreState
    ∧ c5PreState.lost_by = none
    ∧ c5PreState.mini_round_index < 1000
    ∧ soOutcome.bestType.internal_rank = some 5000
    ∧ playHalf [0, 1] ([schock5Outcome] ++ soOutcome :: [schock5Outcome])
        = some { c5PreState with
                 lost_by := some soOutcome.lost_pid
                 mini_round_index := c5PreState.mini_round_index + 1 } :=
  ⟨rfl, rfl, by decide, rfl,
    C5_schock_out_ends_half [0, 1] [schock5Outcome] [schock5Outcome] soOutcome
      c5PreState rfl rfl (by decide) rfl⟩

/-- C6: `play_round` plays halves 0 and 1 with the full player set; equal
losers decide the round directly (two halves, that player loses),
otherwise exactly one tie-break half is played, with only the two
differing losers in the order [loser of half 0, loser of half 1] so the
half-0 loser starts, and its loser is the round's loser. -/
theorem C6_play_round (players : List Int) (outs0 outs1 outs2 : List Outcome)
    (h0 h1 h2 : HalfState) (l0 l1 : Int)
    (e0 : playHalf players outs0 = some h0) (e1 : playHalf players outs1 = some h1)
    (g0 : h0.lost_by = some l0) (g1 : h1.lost_by = some l1)
    (e2 : playHalf [l0, l1] outs2 = some h2) :
    (l0 = l1 → playRound players outs0 outs1 outs2
        = some { halves := [(players, h0), (players, h1)], lost_by := some l0 })
    ∧ (l0 ≠ l1 → playRound players outs0 outs1 outs2
        = some { halves := [(players, h0), (players, h1), ([l0, l1], h2)]
                 lost_by := h2.lost_by }) := by
  constructor
  · intro heq
    subst heq
    unfold playRound
    rw [e0, Option.some_bind, e1, Option.some_bind, if_pos (by rw [g0, g1]), g0]
  · intro hne
    unfold playRound
    rw [e0, Option.some_bind, e1, Option.some_bind,
      if_neg (by rw [g0, g1]; simp [hne]), g0, Option.some_bind, g1,
      Option.some_bind, e2, Option.map_some']

/-- Witness for C6 in the tie-break case: half 0 lost by player 1,
half 1 lost by player 0, tie-break between [1, 0] lost by player 0. -/
theorem C6_play_round_witness :
    (∃ h0 h1 h2, playHalf [0, 1] [soOutcome] = some h0
      ∧ playHalf [0, 1] [soOutcomeRev] = some h1
      ∧ h0.lost_by = some 1 ∧ h1.lost_by = some 0
      ∧ playHalf [1, 0] [soOutcome] = some h2
      ∧ ((1 : Int) = 0 → playRound [0, 1] [soOutcome] [soOutcomeRev] [soOutcome]
          = some { halves := [([0, 1], h0), ([0, 1], h1)], lost_by := some 1 })
      ∧ ((1 : Int) ≠ 0 → playRound [0, 1] [soOutcome] [soOutcomeRev] [soOutcome]
          = some { halves := [([0, 1], h0), ([0, 1], h1), ([1, 0], h2)]
                   lost_by := h2.lost_by })) := by
  refine ⟨_, _, _, rfl, rfl, rfl, rfl, rfl, ?_⟩
  exact C6_play_round [0, 1] [soOutcome] [soOutcomeRev] [soOutcome] _ _ _ 1 0
    rfl rfl rfl rfl rfl

/-- Witness for C4: two players, General-6 for player 0 and Schock-out
for player 1 — best turn is player 1's, 13 chips, player 0 loses. -/
theorem C4_play_mini_round_witness :
    (∀ p ∈ c4Results, p.2.dice.length = 3 ∧
       ∃ ht, p.2.hand_type_cache = some ht ∧ ht.postInitOk = true)
    ∧ ((c4Results.length < 2 ∨ 50 < c4Results.length →
          playMiniRound c4Results = none)
      ∧ (2 ≤ c4Results.length → c4Results.length ≤ 50 →
        ∃ mr worst best, playMiniRound c4Results = some mr
          ∧ mr.worst_turn = some worst ∧ mr.best_turn = some best
          ∧ worst ∈ mr.turns ∧ best ∈ mr.turns
          ∧ (∀ t ∈ mr.turns, Turn.turnLt t worst = some false)
          ∧ (∀ t ∈ mr.turns, Turn.turnLt best t = some false)
          ∧ mr.lost_by = some worst.player_id
          ∧ (∃ htb, best.final_hand.hand_type_cache = some htb ∧
              mr.given_chips = (if htb.hand_type = "Schock-out" then 13
                else if htb.hand_type = "Schock" then htb.hand_type_value
                else if htb.hand_type = "General" then 3
                else if htb.hand_type = "Straight" then 2 else 1))
          ∧ (∀ t ∈ mr.turns, ∀ r : Int,
              t.final_hand.handTypeProp.bind HandType.internal_rank = some r →
              best.final_hand.handTypeProp.bind HandType.internal_rank = some r →
              best.final_hand.players_turn_ind ≤ t.final_hand.players_turn_ind)
          ∧ (∀ t ∈ mr.turns, ∀ r : Int,
              t.final_hand.handTypeProp.bind HandType.internal_rank = some r →
              worst.final_hand.handTypeProp.bind HandType.internal_rank = some r →
              t.final_hand.players_turn_ind ≤ worst.final_hand.players_turn_ind))) :=
  ⟨by
    intro p hp
    fin_cases hp
    · exact ⟨rfl, { hand_type := "General", hand_type_value := 6 }, rfl, by decide⟩
    · exact ⟨rfl, { hand_type := "Schock-out" }, rfl, by decide⟩,
   C4_play_mini_round c4Results (by
    intro p hp
    fin_cases hp
    · exact ⟨rfl, { hand_type := "General", hand_type_value := 6 }, rfl, by decide⟩
    · exact ⟨rfl, { hand_type := "Schock-out" }, rfl, by decide⟩)⟩

/-- C8 (code bug): in the default strategy's throw step on the hand
4-3-3 (nothing to take out or convert), when the first reroll happens to
land on 3, the remaining two dice — which compare equal by value to the
just-thrown die — are treated as already processed and keep their value 3
without ever being thrown: only one roll is consumed instead of three,
though the hand does still hold exactly 3 dice. -/
theorem C8_unprocessed_die_not_rethrown :
    ((handOfValues false [3, 3, 4]).update.bind
        (fun h => throwNewHand h c8Rolls 0 true true false)).map
        (fun p => (p.1.dice.map Die.value, p.1.dice.length, p.2))
      = some ([3, 3, 3], 3, 1) := by
  decide

end Schocken
